import Mathlib

/-!
Verification of the medInsight streaming relay and section parser.

The Python source is shallowly embedded over `List Char` (Python `str`
values are character sequences; all inputs of interest are ASCII).
The embedded functions mirror, statement by statement:

* `consultations/ml_service.py`, `LocalModelService._parse_response`
  (the section parser used by the active code path);
* `consultations/views.py`, `stream_ai_response`'s inner `event_stream`
  generator (the event relay / persistence driver);
* `consultations/services.py`, `LLMService.stream_response`
  (the hosted-API streaming generator).
-/

set_option maxRecDepth 8192

namespace MedInsight

/-- Character list of a string literal (Python `str` values are embedded as `List Char`). -/
def litS (s : String) : List Char := s.toList

/-- Python `str.strip()` whitespace set restricted to ASCII
(space, tab, newline, carriage return, vertical tab, form feed). -/
def isPySpace (c : Char) : Bool :=
  c = ' ' || c = '\t' || c = '\n' || c = '\x0d' || c = '\x0b' || c = '\x0c'

/-- Python `str.strip()`: drop leading and trailing whitespace. -/
def pyStrip (l : List Char) : List Char :=
  List.rdropWhile isPySpace (List.dropWhile isPySpace l)

/-- Python `str.upper()` on ASCII text. -/
def pyUpper (l : List Char) : List Char := l.map Char.toUpper

/-- Index of the first occurrence of `sub` in the list, if any
(leftmost match, as Python `str.find` with start 0). -/
def findIdx (sub : List Char) : List Char → Option Nat
  | [] => if sub.isPrefixOf ([] : List Char) then some 0 else none
  | c :: t => if sub.isPrefixOf (c :: t) then some 0 else (findIdx sub t).map (· + 1)

/-- Python `sub in s` (substring containment). -/
def containsSub (s sub : List Char) : Bool := (findIdx sub s).isSome

/-- Effective start position of Python `s.find(sub, start)`: a negative
`start` counts from the end, clamped at 0. -/
def pyStart (len : Nat) (start : Int) : Nat :=
  if start < 0 then (max 0 ((len : Int) + start)).toNat else start.toNat

/-- Python `s.find(sub, start)`: first index at or after `start` where `sub`
occurs, `-1` if none. -/
def pyFind (s sub : List Char) (start : Int) : Int :=
  match findIdx sub (s.drop (pyStart s.length start)) with
  | some i => ((pyStart s.length start : Nat) : Int) + (i : Int)
  | none => -1

/-- Python slice `s[a:b]` for the non-negative indices used by the source. -/
def pySlice (s : List Char) (a b : Int) : List Char :=
  (s.drop a.toNat).take (b.toNat - a.toNat)

/-- Python `s.replace(old, new)` with explicit fuel (structural recursion so
that concrete instances reduce in the kernel); scans left to right, skips
past each replaced occurrence (occurrences are not rescanned). -/
def replaceFuel (old new : List Char) : Nat → List Char → List Char
  | 0, s => s
  | _ + 1, [] => []
  | fuel + 1, c :: t =>
    if old.isPrefixOf (c :: t) then new ++ replaceFuel old new fuel ((c :: t).drop old.length)
    else c :: replaceFuel old new fuel t

/-- Python `s.replace(old, new)`; with `old` nonempty each step of
`replaceFuel` consumes at least one character, so `s.length` fuel suffices. -/
def pyReplace (s old new : List Char) : List Char :=
  if old = [] then s else replaceFuel old new s.length s

/-- Python `s.split(sep)` for a single-character separator. -/
def pySplitOn (sep : Char) : List Char → List (List Char)
  | [] => [[]]
  | c :: t =>
    if c = sep then [] :: pySplitOn sep t
    else
      match pySplitOn sep t with
      | [] => [[c]]
      | h :: r => (c :: h) :: r

/-- Python `sep.join(parts)` for the `'\n'` separator used by the source. -/
def joinNl : List (List Char) → List Char
  | [] => []
  | [x] => x
  | x :: y :: r => x ++ '\n' :: joinNl (y :: r)

/-- Python list slice `lines[a:b]`. -/
def pyListSlice (l : List (List Char)) (a b : Nat) : List (List Char) :=
  (l.drop a).take (b - a)

/-- Structured parser output: `{summary, diagnosis, management}`
(`LocalModelService._parse_response` return value). -/
structure ParsedResult where
  summary : List Char
  diagnosis : List Char
  management : List Char
deriving DecidableEq, Repr

/-- The `# Find SUMMARY` block of `LocalModelService._parse_response`
(ml_service.py lines 273-285): value assigned to `summary`. -/
def summaryPart (text text_upper : List Char) : List Char :=
  if containsSub text_upper (litS "SUMMARY") || containsSub text_upper (litS "CLINICAL SUMMARY") then
    let s1 := max (pyFind text_upper (litS "SUMMARY:") 0) (pyFind text_upper (litS "CLINICAL SUMMARY:") 0)
    let summary_start := if s1 = -1 then pyFind text_upper (litS "SUMMARY") 0 else s1
    let diag_start := pyFind text_upper (litS "DIAGNOSIS") summary_start
    if diag_start > summary_start ∧ summary_start ≠ -1 then
      pyStrip (pyReplace (pyReplace (pySlice text summary_start diag_start)
        (litS "SUMMARY:") []) (litS "CLINICAL SUMMARY:") [])
    else []
  else []

/-- The `# Find DIAGNOSIS` block of `LocalModelService._parse_response`
(ml_service.py lines 287-294): value assigned to `diagnosis`. -/
def diagnosisPart (text text_upper : List Char) : List Char :=
  if containsSub text_upper (litS "DIAGNOSIS") then
    let diag_start := pyFind text_upper (litS "DIAGNOSIS") 0
    let mgmt_start := pyFind text_upper (litS "MANAGEMENT") diag_start
    if mgmt_start > diag_start then
      pyStrip (pyReplace (pySlice text diag_start mgmt_start) (litS "DIAGNOSIS:") [])
    else []
  else []

/-- The `# Find MANAGEMENT` block of `LocalModelService._parse_response`
(ml_service.py lines 296-300): value assigned to `management`. -/
def managementPart (text text_upper : List Char) : List Char :=
  if containsSub text_upper (litS "MANAGEMENT") then
    let mgmt_start := pyFind text_upper (litS "MANAGEMENT") 0
    pyStrip (pyReplace (pyReplace (text.drop mgmt_start.toNat)
      (litS "MANAGEMENT:") []) (litS "MANAGEMENT PLAN:") [])
  else []

/-- `LocalModelService._parse_response` (ml_service.py lines 259-314):
strip the input, search for the three sections by case-insensitive keyword,
and if all three come out empty fall back to splitting the lines in thirds;
each returned field is stripped. -/
def parse_response (t : List Char) : ParsedResult :=
  let text := pyStrip t
  let text_upper := pyUpper text
  let summary := summaryPart text text_upper
  let diagnosis := diagnosisPart text text_upper
  let management := managementPart text text_upper
  if summary = [] ∧ diagnosis = [] ∧ management = [] then
    let lines := pySplitOn '\n' text
    let third := lines.length / 3
    { summary := pyStrip (joinNl (lines.take third))
      diagnosis := pyStrip (joinNl (pyListSlice lines third (2 * third)))
      management := pyStrip (joinNl (lines.drop (2 * third))) }
  else
    { summary := pyStrip summary
      diagnosis := pyStrip diagnosis
      management := pyStrip management }

/-- Configuration state of `LocalModelService` read in `__init__`
(ml_service.py lines 25-29) plus the `_model_loaded` class flag.
`_parse_response`'s body reads none of these fields. -/
structure MLServiceState where
  model_path : Option (List Char)
  device : List Char
  max_length : Nat
  generation_max_length : Nat
  model_loaded : Bool

/-- `LocalModelService._parse_response` as the Python method: a function of the
service instance (`self`) and the text argument.  The method body uses only
`text`, so the embedding ignores the state. -/
def parse_response_method (_self : MLServiceState) (t : List Char) : ParsedResult :=
  parse_response t

/-- Python exception value as seen by the two `except` clauses of
`stream_ai_response` (views.py lines 309-320): whether it is a
`FileNotFoundError`, and its message. -/
structure PyExc where
  fnf : Bool
  msg : List Char
deriving DecidableEq, Repr

/-- Server-sent event emitted by `event_stream` in `stream_ai_response`
(views.py lines 269-320); the JSON wire framing is owned by the web layer,
the `type` tag and payload are modelled. -/
inductive Event where
  | status (msg : List Char)
  | start
  | chunk (content : List Char)
  | complete (data : ParsedResult)
  | error (msg : List Char)
deriving DecidableEq, Repr

/-- The message of views.py line 277. -/
def statusLoading : Event :=
  Event.status (litS "Loading model... (first time takes 10-20 seconds)")

/-- The message of views.py line 279. -/
def statusLoaded : Event :=
  Event.status (litS "Model loaded! Generating response...")

/-- The message built by the two exception handlers of `stream_ai_response`
(views.py lines 309-320). -/
def handlerMsg (e : PyExc) : List Char :=
  if e.fnf then litS "Model not found. Please check model path in settings.py. Error: " ++ e.msg
  else litS "Error: " ++ e.msg

/-- The `full_response` string built in `stream_ai_response`
(views.py lines 288-292). -/
def fullResponse (p : ParsedResult) : List Char :=
  litS "SUMMARY: " ++ p.summary ++ litS "\n\nDIAGNOSIS: " ++ p.diagnosis
    ++ litS "\n\nMANAGEMENT: " ++ p.management

/-- Slices `full_response[i:i+k]` for `i = 0, k, 2k, ...`
(the `for i in range(0, len(full_response), chunk_size)` loop,
views.py lines 295-298), via structural fuel recursion. -/
def chunksFuel (k : Nat) : Nat → List Char → List (List Char)
  | 0, _ => []
  | _ + 1, [] => []
  | fuel + 1, c :: t => ((c :: t).take k) :: chunksFuel k fuel ((c :: t).drop k)

/-- All chunks of `l` of size `k` (last one possibly shorter); `l.length`
fuel suffices since each step consumes `k ≥ 1` characters. -/
def pyChunks (k : Nat) (l : List Char) : List (List Char) :=
  chunksFuel k l.length l

/-- The chunk events emitted for one parsed result: `full_response` cut into
50-character slices (views.py lines 295-298). -/
def chunkEvents (p : ParsedResult) : List Event :=
  (pyChunks 50 (fullResponse p)).map Event.chunk

/-- The persisted fields of the owning `Consultation` row that
`stream_ai_response` writes (views.py lines 300-304). -/
structure Record where
  summary : List Char
  diagnosis : List Char
  management : List Char
deriving DecidableEq, Repr

/-- Outcome environment for one `event_stream` run: whether the singleton
model is already loaded, and the outcomes of the three effectful calls
(`load_model`, `generate_response` returning the decoded model text that is
handed to `_parse_response`, and `consultation.save`). -/
structure SessionCfg where
  model_loaded : Bool
  loadOutcome : Except PyExc Unit
  genOutcome : Except PyExc (List Char)
  saveOutcome : Except PyExc Unit

/-- Result of one `event_stream` run: the emitted event sequence, the
persisted record after the run, and how many successful `save` calls
were made. -/
structure SessionResult where
  events : List Event
  record : Record
  saveCount : Nat
deriving DecidableEq, Repr

/-- The part of `event_stream` after the model-loading preamble
(views.py lines 282-320): emit `start`; run `generate_response` (which

parses the decoded text with `_parse_response`); on success emit the
50-character chunks of `full_response`, save the three parsed fields onto
the record, and emit `complete`; any exception is caught and converted to a
single terminal `error` event, with the persisted record untouched. -/
def afterLoad (cfg : SessionCfg) (r0 : Record) (pre : List Event) : SessionResult :=
  match cfg.genOutcome with
  | Except.error e => ⟨pre ++ [Event.start, Event.error (handlerMsg e)], r0, 0⟩
  | Except.ok raw =>
    let parsed := parse_response raw
    match cfg.saveOutcome with
    | Except.error e =>
      ⟨pre ++ Event.start :: chunkEvents parsed ++ [Event.error (handlerMsg e)], r0, 0⟩
    | Except.ok _ =>
      ⟨pre ++ Event.start :: chunkEvents parsed ++ [Event.complete parsed],
        ⟨parsed.summary, parsed.diagnosis, parsed.management⟩, 1⟩

/-- The `event_stream` generator of `stream_ai_response`
(views.py lines 269-320): if the model is not loaded, emit a `status` event,
run `load_model` (on failure: terminal `error`, no `start`), emit a second
`status` event; then proceed as `afterLoad`. -/
def event_stream (cfg : SessionCfg) (r0 : Record) : SessionResult :=
  if cfg.model_loaded then afterLoad cfg r0 []
  else
    match cfg.loadOutcome with
    | Except.error e => ⟨[statusLoading, Event.error (handlerMsg e)], r0, 0⟩
    | Except.ok _ => afterLoad cfg r0 [statusLoading, statusLoaded]

/-- Whether an `Except` outcome is a success. -/
def exceptOk {α β : Type} : Except α β → Bool
  | Except.ok _ => true
  | Except.error _ => false

/-- A run reaches the save and `complete` without any exception. -/
def sessionSuccess (cfg : SessionCfg) : Bool :=
  (cfg.model_loaded || exceptOk cfg.loadOutcome)
    && exceptOk cfg.genOutcome && exceptOk cfg.saveOutcome

/-- The spec's event-sequence shape after the leading `start`:
zero or more `chunk` events, then exactly one terminal
`complete` or `error` event. -/
def tailShape : List Event → Bool
  | [Event.complete _] => true
  | [Event.error _] => true
  | Event.chunk _ :: rest => tailShape rest
  | _ => false

/-- The spec's event-sequence shape (spec.md section 3, StreamEvent):
exactly one `start` first, then `chunk*`, then one terminal event,
nothing before `start` or after the terminal event. -/
def specShape : List Event → Bool
  | Event.start :: rest => tailShape rest
  | _ => false

/-- Concatenated content of all `chunk` events, in order. -/
def chunkConcat (evts : List Event) : List Char :=
  (evts.filterMap fun e =>
    match e with
    | Event.chunk c => some c
    | _ => none).flatten

/-- Whether the last event of the list is an `error` event. -/
def lastIsError (evts : List Event) : Bool :=
  match evts.getLast? with
  | some (Event.error _) => true
  | _ => false

/-- Processing of the SSE line loop in `LLMService.stream_response`
(services.py lines 92-111): skip empty lines and lines without the
`data: ` prefix; break on `[DONE]`; on a JSON decode failure continue; on a
decoded delta yield the content when nonempty.  `decode` abstracts
`json.loads` plus the `choices[0].delta.content` extraction (`none` models a
`json.JSONDecodeError`, `some []` a missing/empty content).  Returns the
yielded fragments and whether the loop exited via the `[DONE]` break. -/
def processLines (decode : List Char → Option (List Char)) :
    List (List Char) → List (List Char) × Bool
  | [] => ([], false)
  | line :: rest =>
    if line = [] then processLines decode rest
    else if (litS "data: ").isPrefixOf line then
      let data := line.drop 6
      if data = litS "[DONE]" then ([], true)
      else
        match decode data with
        | none => processLines decode rest
        | some content =>
          if content = [] then processLines decode rest
          else
            let r := processLines decode rest
            (content :: r.1, r.2)
    else processLines decode rest

/-- `LLMService.stream_response` (services.py lines 53-118), as the sequence
of fragments the generator yields.  `lines` are the SSE lines delivered by
`response.iter_lines()` before the backend either ends the stream
(`fault = none`) or raises (`fault = some msg`, which also covers
`requests.post`/`raise_for_status` failing before any line, with
`lines = []`).  The single `except` clause turns any exception into one
yielded text fragment `"Error: " + msg`; after a `[DONE]` break the
iteration never resumes, so a pending fault is never raised. -/
def stream_response (decode : List Char → Option (List Char))
    (lines : List (List Char)) (fault : Option (List Char)) : List (List Char) :=
  let r := processLines decode lines
  if r.2 then r.1
  else
    match fault with
    | none => r.1
    | some msg => r.1 ++ [litS "Error: " ++ msg]

/-! ### Auxiliary lemmas about the embedded string primitives -/

theorem findIdx_isSome_iff (sub s : List Char) : (findIdx sub s).isSome = true ↔ sub <:+: s := by
  induction s with
  | nil =>
    constructor
    · intro h
      simp only [findIdx] at h
      split at h
      · next hp =>
        have hpn : sub <+: [] := List.isPrefixOf_iff_prefix.mp hp
        have hsn : sub = [] := List.prefix_nil.mp hpn
        simp [hsn]
      · simp at h
    · intro h
      have hnil : sub = [] := List.infix_nil.mp h
      subst hnil
      simp [findIdx, List.isPrefixOf]
  | cons c t ih =>
    by_cases hp : sub.isPrefixOf (c :: t)
    · simp only [findIdx, hp, if_true, Option.isSome_some, true_iff]
      have hpf : sub <+: (c :: t) := List.isPrefixOf_iff_prefix.mp hp
      exact hpf.isInfix
    · simp only [findIdx, hp, Bool.false_eq_true, if_false, Option.isSome_map']
      rw [ih, List.infix_cons_iff]
      have hnp : ¬ sub <+: (c :: t) := fun hc => hp (by exact List.isPrefixOf_iff_prefix.mpr hc)
      tauto

theorem containsSub_iff_isInfix (s sub : List Char) : containsSub s sub = true ↔ sub <:+: s :=
  findIdx_isSome_iff sub s

theorem findIdx_drop_eq_none {s sub : List Char} (h : containsSub s sub = false) (k : Nat) :
    findIdx sub (s.drop k) = none := by
  by_contra hne
  have hs : (findIdx sub (s.drop k)).isSome = true := Option.ne_none_iff_isSome.mp hne
  have hinf : sub <:+: s.drop k := (findIdx_isSome_iff _ _).mp hs
  have hinf2 : sub <:+: s := hinf.trans (List.drop_suffix k s).isInfix
  have := (containsSub_iff_isInfix s sub).mpr hinf2
  rw [h] at this
  exact Bool.noConfusion this

theorem pyFind_eq_neg_one {s sub : List Char} (h : containsSub s sub = false) (st : Int) :
    pyFind s sub st = -1 := by
  unfold pyFind
  rw [findIdx_drop_eq_none h]

theorem neg_one_le_pyFind (s sub : List Char) (st : Int) : -1 ≤ pyFind s sub st := by
  unfold pyFind
  cases hf : findIdx sub (s.drop (pyStart s.length st)) with
  | none => simp
  | some i => simp; omega

theorem containsSub_mono {s sub sub' : List Char} (hss : sub' <:+: sub)
    (h : containsSub s sub = true) : containsSub s sub' = true :=
  (containsSub_iff_isInfix s sub').mpr (hss.trans ((containsSub_iff_isInfix s sub).mp h))

theorem flatten_chunksFuel (k : Nat) (hk : 1 ≤ k) :
    ∀ (fuel : Nat) (l : List Char), l.length ≤ fuel → (chunksFuel k fuel l).flatten = l := by
  intro fuel
  induction fuel with
  | zero =>
    intro l hl
    have : l = [] := List.length_eq_zero.mp (Nat.le_zero.mp hl)
    subst this
    rfl
  | succ n ih =>
    intro l hl
    cases l with
    | nil => rfl
    | cons c t =>
      simp only [chunksFuel, List.flatten_cons]
      rw [ih ((c :: t).drop k) ?_]
      · exact List.take_append_drop k (c :: t)
      · rw [List.length_drop]
        simp only [List.length_cons] at hl ⊢
        omega

theorem flatten_pyChunks (k : Nat) (hk : 1 ≤ k) (l : List Char) :
    (pyChunks k l).flatten = l :=
  flatten_chunksFuel k hk l.length l le_rfl

theorem tailShape_chunks_complete (cs : List (List Char)) (p : ParsedResult) :
    tailShape (cs.map Event.chunk ++ [Event.complete p]) = true := by
  induction cs with
  | nil => rfl
  | cons c cs ih => simpa [tailShape] using ih

theorem tailShape_chunks_error (cs : List (List Char)) (m : List Char) :
    tailShape (cs.map Event.chunk ++ [Event.error m]) = true := by
  induction cs with
  | nil => rfl
  | cons c cs ih => simpa [tailShape] using ih

theorem chunkConcat_append (a b : List Event) :
    chunkConcat (a ++ b) = chunkConcat a ++ chunkConcat b := by
  simp [chunkConcat, List.filterMap_append]

theorem chunkConcat_map_chunk (cs : List (List Char)) :
    chunkConcat (cs.map Event.chunk) = cs.flatten := by
  induction cs with
  | nil => rfl
  | cons c cs ih =>
    simp only [chunkConcat] at ih
    simp only [List.map_cons, chunkConcat, List.filterMap_cons, List.flatten_cons]
    exact congrArg (c ++ ·) ih

theorem dropWhile_rdropWhile_of (p : Char → Bool) (l : List Char)
    (h : List.dropWhile p l = l) :
    List.dropWhile p (List.rdropWhile p l) = List.rdropWhile p l := by
  rcases hr : List.rdropWhile p l with _ | ⟨c, t⟩
  · rfl
  · obtain ⟨s, hs⟩ := List.rdropWhile_prefix p l
    rw [hr] at hs
    have hcl : l = c :: (t ++ s) := by rw [← hs]; rfl
    rw [hcl, List.dropWhile_cons] at h
    by_cases hpc : p c
    · rw [if_pos hpc] at h
      have hlen := congrArg List.length h
      have hsuf : List.dropWhile p (t ++ s) <:+ (t ++ s) := List.dropWhile_suffix p
      have hle := hsuf.length_le
      simp only [List.length_cons] at hlen
      omega
    · rw [List.dropWhile_cons, if_neg hpc]

theorem pyStrip_idem (l : List Char) : pyStrip (pyStrip l) = pyStrip l := by
  unfold pyStrip
  rw [dropWhile_rdropWhile_of _ _ (List.dropWhile_idempotent _ _),
    List.rdropWhile_idempotent]

theorem pySplitOn_of_not_mem {sep : Char} {l : List Char} (h : sep ∉ l) :
    pySplitOn sep l = [l] := by
  induction l with
  | nil => rfl
  | cons c t ih =>
    have hc : ¬ c = sep := fun hh => h (by rw [hh]; exact List.mem_cons_self _ _)
    have ht : sep ∉ t := fun hm => h (List.mem_cons_of_mem _ hm)
    simp [pySplitOn, hc, ih ht]

/-! ### The three keyword blocks produce empty strings in the relevant cases -/

theorem neg_one_le_summary_start (tu : List Char) :
    -1 ≤ (if (max (pyFind tu (litS "SUMMARY:") 0) (pyFind tu (litS "CLINICAL SUMMARY:") 0)) = -1
      then pyFind tu (litS "SUMMARY") 0
      else max (pyFind tu (litS "SUMMARY:") 0) (pyFind tu (litS "CLINICAL SUMMARY:") 0)) := by
  split
  · exact neg_one_le_pyFind _ _ _
  · exact le_trans (neg_one_le_pyFind tu (litS "SUMMARY:") 0) (le_max_left _ _)

theorem summaryPart_nil_of_no_diag {text tu : List Char}
    (hD : containsSub tu (litS "DIAGNOSIS") = false) :
    summaryPart text tu = [] := by
  unfold summaryPart
  split
  · dsimp only
    rw [pyFind_eq_neg_one hD, if_neg]
    intro hcon
    have h1 := hcon.1
    have h2 := neg_one_le_summary_start tu
    omega
  · rfl

theorem summaryPart_nil_of_no_summary {text tu : List Char}
    (hS : containsSub tu (litS "SUMMARY") = false) :
    summaryPart text tu = [] := by
  unfold summaryPart
  rw [if_neg]
  intro hcon
  rcases Bool.or_eq_true_iff.mp hcon with h | h
  · rw [hS] at h; exact Bool.noConfusion h
  · have : containsSub tu (litS "SUMMARY") = true :=
      containsSub_mono (by decide) h
    rw [hS] at this; exact Bool.noConfusion this

theorem diagnosisPart_nil_of_no_diag {text tu : List Char}
    (hD : containsSub tu (litS "DIAGNOSIS") = false) :
    diagnosisPart text tu = [] := by
  unfold diagnosisPart
  rw [if_neg]
  rw [hD]
  exact Bool.noConfusion

theorem diagnosisPart_nil_of_no_mgmt {text tu : List Char}
    (hM : containsSub tu (litS "MANAGEMENT") = false) :
    diagnosisPart text tu = [] := by
  unfold diagnosisPart
  split
  · dsimp only
    rw [pyFind_eq_neg_one hM, if_neg]
    intro hcon
    have := neg_one_le_pyFind tu (litS "DIAGNOSIS") 0
    omega
  · rfl

theorem managementPart_nil_of_no_mgmt {text tu : List Char}
    (hM : containsSub tu (litS "MANAGEMENT") = false) :
    managementPart text tu = [] := by
  unfold managementPart
  rw [if_neg]
  rw [hM]
  exact Bool.noConfusion

/-- Common form of the fallback result for a single-line input none of whose
keyword blocks fired: the whole stripped text lands in `management`. -/
theorem parse_response_single_line_fallback {t : List Char}
    (h1 : summaryPart (pyStrip t) (pyUpper (pyStrip t)) = [])
    (h2 : diagnosisPart (pyStrip t) (pyUpper (pyStrip t)) = [])
    (h3 : managementPart (pyStrip t) (pyUpper (pyStrip t)) = [])
    (hNL : ('\n' : Char) ∉ pyStrip t) :
    parse_response t = ⟨[], [], pyStrip t⟩ := by
  have hx : pySplitOn '\n' (pyStrip t) = [pyStrip t] := pySplitOn_of_not_mem hNL
  have hnil : pyStrip ([] : List Char) = [] := rfl
  unfold parse_response
  simp only [h1, h2, h3, hx]
  rw [if_pos ⟨trivial, trivial, trivial⟩]
  simp only [List.length_cons, List.length_nil, Nat.zero_add, pyListSlice]
  norm_num [joinNl, hnil]
  exact pyStrip_idem t

theorem lastIsError_concat (l : List Event) (m : List Char) :
    lastIsError (l ++ [Event.error m]) = true := by
  simp [lastIsError, List.getLast?_concat]

theorem chunkConcat_relay (pre : List Event) (hpre : chunkConcat pre = [])
    (cs : List (List Char)) (e : Event) (he : chunkConcat [e] = []) :
    chunkConcat (pre ++ Event.start :: cs.map Event.chunk ++ [e]) = cs.flatten := by
  have hstart : ∀ Y : List Event, chunkConcat (Event.start :: Y) = chunkConcat Y := by
    intro Y
    simp [chunkConcat, List.filterMap_cons]
  rw [chunkConcat_append, chunkConcat_append, hpre, hstart, chunkConcat_map_chunk, he]
  simp

/-! ### Claims -/

/-- C1, counterexample: in a run where the singleton model is not yet loaded
(and loading succeeds), `event_stream` emits two `status` events before
`start`, so the claimed shape `start, chunk*, terminal` with nothing before
`start` fails. -/
theorem C1_counterexample :
    specShape (event_stream ⟨false, Except.ok (), Except.ok (litS "x"), Except.ok ()⟩
      ⟨[], [], []⟩).events = false := by decide

/-- C1 (amended): when the model is already loaded at session start, every
run's event sequence is exactly one `start` first, then zero or more `chunk`
events, then exactly one terminal event (`complete` on success, `error` on
any failure), with no events before `start` or after the terminal event. -/
theorem C1_event_shape_when_model_loaded (load : Except PyExc Unit)
    (gen : Except PyExc (List Char)) (save : Except PyExc Unit) (r0 : Record) :
    specShape (event_stream ⟨true, load, gen, save⟩ r0).events = true := by
  cases gen with
  | error e => rfl
  | ok raw =>
    cases save with
    | error e =>
      show tailShape ((pyChunks 50 (fullResponse (parse_response raw))).map Event.chunk
        ++ [Event.error (handlerMsg e)]) = true
      exact tailShape_chunks_error _ _
    | ok u =>
      show tailShape ((pyChunks 50 (fullResponse (parse_response raw))).map Event.chunk
        ++ [Event.complete (parse_response raw)]) = true
      exact tailShape_chunks_complete _ _

/-- C2, counterexample: with the backend producing the text `"hello"` in a
successful run, the concatenation of the emitted `chunk` contents is the
re-rendered `full_response` string, not the backend text `"hello"` that was
passed to the parser. -/
theorem C2_counterexample :
    chunkConcat (event_stream ⟨true, Except.ok (), Except.ok (litS "hello"), Except.ok ()⟩
      ⟨[], [], []⟩).events ≠ litS "hello" := by decide

/-- C2 (amended): in every successful run, the concatenation of the `chunk`
events' contents equals the `full_response` string
`"SUMMARY: <s>\n\nDIAGNOSIS: <d>\n\nMANAGEMENT: <m>"` rebuilt from the parse
of the backend's decoded output — not the backend output itself; the view
re-renders the parsed fields and re-chunks them in 50-character slices. -/
theorem C2_chunk_concat_eq_full_response (model_loaded : Bool) (raw : List Char) (r0 : Record) :
    chunkConcat (event_stream ⟨model_loaded, Except.ok (), Except.ok raw, Except.ok ()⟩ r0).events
      = fullResponse (parse_response raw) := by
  have hfl := flatten_pyChunks 50 (by norm_num) (fullResponse (parse_response raw))
  cases model_loaded with
  | false =>
    exact (chunkConcat_relay [statusLoading, statusLoaded] rfl
      (pyChunks 50 (fullResponse (parse_response raw)))
      (Event.complete (parse_response raw)) rfl).trans hfl
  | true =>
    exact (chunkConcat_relay []
      rfl (pyChunks 50 (fullResponse (parse_response raw)))
      (Event.complete (parse_response raw)) rfl).trans hfl

/-- C3: persistence happens exactly once per session and only on the success
path, where the record receives exactly the three parsed fields; on every
failing run (load, generation or save failure) there are zero saves, the
persisted record is unchanged, and the session ends with an `error` event. -/
theorem C3_persistence_once_only_on_success (cfg : SessionCfg) (r0 : Record) :
    (event_stream cfg r0).saveCount = cond (sessionSuccess cfg) 1 0
    ∧ (if sessionSuccess cfg = true
        then ∃ raw, cfg.genOutcome = Except.ok raw ∧ (event_stream cfg r0).record =
          ⟨(parse_response raw).summary, (parse_response raw).diagnosis,
            (parse_response raw).management⟩
        else (event_stream cfg r0).record = r0
          ∧ lastIsError (event_stream cfg r0).events = true) := by
  obtain ⟨ml, lo, go, so⟩ := cfg
  have hsave : ∀ (pre : List Event) (p : ParsedResult) (m : List Char),
      lastIsError (pre ++ Event.start :: chunkEvents p ++ [Event.error m]) = true := by
    intro pre p m
    have := lastIsError_concat (pre ++ Event.start :: chunkEvents p) m
    simpa [List.append_assoc, List.cons_append] using this
  cases ml with
  | false =>
    cases lo with
    | error e => exact ⟨rfl, show _ ∧ _ from ⟨rfl, rfl⟩⟩
    | ok u =>
      cases go with
      | error e => exact ⟨rfl, show _ ∧ _ from ⟨rfl, rfl⟩⟩
      | ok raw =>
        cases so with
        | error e => exact ⟨rfl, show _ ∧ _ from ⟨rfl, hsave _ _ _⟩⟩
        | ok v => exact ⟨rfl, show ∃ _, _ from ⟨raw, rfl, rfl⟩⟩
  | true =>
    cases go with
    | error e => exact ⟨rfl, show _ ∧ _ from ⟨rfl, rfl⟩⟩
    | ok raw =>
      cases so with
      | error e => exact ⟨rfl, show _ ∧ _ from ⟨rfl, hsave _ _ _⟩⟩
      | ok v => exact ⟨rfl, show ∃ _, _ from ⟨raw, rfl, rfl⟩⟩

/-- C4, counterexample: the parser does not return the claimed fields on the
spec's own canonical input — marker labels are found case-insensitively but
removed case-sensitively, slices start at (not after) the marker, and the
summary is empty because no "SUMMARY" keyword occurs. -/
theorem C4_counterexample :
    parse_response (litS "Pt has flu. Diagnosis: Influenza. Management: rest and fluids.")
      ≠ ⟨litS "Pt has flu.", litS "Influenza.", litS "rest and fluids."⟩ := by decide

/-- C4 (amended): on the canonical input with mixed-case markers the parser
returns summary = "" (no "SUMMARY" keyword present), diagnosis =
"Diagnosis: Influenza." (slice starts at the marker; the case-sensitive
`replace("DIAGNOSIS:")` does not strip the mixed-case label), and
management = "Management: rest and fluids." for the same reason. -/
theorem C4_canonical_input_actual_result :
    parse_response (litS "Pt has flu. Diagnosis: Influenza. Management: rest and fluids.")
      = ⟨[], litS "Diagnosis: Influenza.", litS "Management: rest and fluids."⟩ := by decide

/-- C5, counterexample: on the spec's input with a diagnosis marker and no
management marker, the parser does not return the claimed fields. -/
theorem C5_counterexample :
    parse_response (litS "Pt has flu. Diagnosis: Influenza.")
      ≠ ⟨litS "Pt has flu.", litS "Influenza.", []⟩ := by decide

/-- C5 (amended): when the text contains the diagnosis marker but no
management marker (and no "SUMMARY" keyword), all three keyword blocks
produce empty strings — the diagnosis block requires a management marker
after the diagnosis marker — so the parser falls into the split-by-thirds
fallback; for a single-line input this yields summary = "", diagnosis = ""
and the entire trimmed text as management. -/
theorem C5_diag_without_mgmt_single_line (t : List Char)
    (hD : containsSub (pyUpper (pyStrip t)) (litS "DIAGNOSIS") = true)
    (hM : containsSub (pyUpper (pyStrip t)) (litS "MANAGEMENT") = false)
    (hS : containsSub (pyUpper (pyStrip t)) (litS "SUMMARY") = false)
    (hNL : ('\n' : Char) ∉ pyStrip t) :
    parse_response t = ⟨[], [], pyStrip t⟩ :=
  parse_response_single_line_fallback
    (summaryPart_nil_of_no_summary hS)
    (diagnosisPart_nil_of_no_mgmt hM)
    (managementPart_nil_of_no_mgmt hM)
    hNL

/-- C5, witness: instantiation of the amended claim at the spec's concrete
diagnosis-only input. -/
theorem C5_witness :
    containsSub (pyUpper (pyStrip (litS "Pt has flu. Diagnosis: Influenza."))) (litS "DIAGNOSIS") = true
    ∧ parse_response (litS "Pt has flu. Diagnosis: Influenza.")
        = ⟨[], [], pyStrip (litS "Pt has flu. Diagnosis: Influenza.")⟩ :=
  ⟨by decide, C5_diag_without_mgmt_single_line _ (by decide) (by decide) (by decide) (by decide)⟩

/-- C6, counterexample: on the spec's marker-free input the parser does not
put the trimmed text into summary. -/
theorem C6_counterexample :
    parse_response (litS "Just some unstructured narrative text.")
      ≠ ⟨litS "Just some unstructured narrative text.", [], []⟩ := by decide

/-- C6 (amended): when neither marker occurs (case-insensitively), the
parser falls into the split-by-thirds fallback over the text's lines; for a
single-line input `len(lines) // 3 = 0`, so summary = "", diagnosis = ""
and the entire trimmed text lands in management, not in summary. -/
theorem C6_no_marker_single_line (t : List Char)
    (hD : containsSub (pyUpper (pyStrip t)) (litS "DIAGNOSIS") = false)
    (hM : containsSub (pyUpper (pyStrip t)) (litS "MANAGEMENT") = false)
    (hNL : ('\n' : Char) ∉ pyStrip t) :
    parse_response t = ⟨[], [], pyStrip t⟩ :=
  parse_response_single_line_fallback
    (summaryPart_nil_of_no_diag hD)
    (diagnosisPart_nil_of_no_diag hD)
    (managementPart_nil_of_no_mgmt hM)
    hNL

/-- C6, witness: instantiation of the amended claim at the spec's concrete
marker-free input. -/
theorem C6_witness :
    containsSub (pyUpper (pyStrip (litS "Just some unstructured narrative text."))) (litS "DIAGNOSIS") = false
    ∧ parse_response (litS "Just some unstructured narrative text.")
        = ⟨[], [], pyStrip (litS "Just some unstructured narrative text.")⟩ :=
  ⟨by decide, C6_no_marker_single_line _ (by decide) (by decide) (by decide)⟩

/-- C7: the parser is total — for every input (including the empty string)
it returns a record of exactly three string fields, each stripped of
leading and trailing whitespace; the embedding is a total function, so no
exception and no null field is possible. -/
theorem C7_parser_total (t : List Char) :
    ∃ s d m, parse_response t = ⟨s, d, m⟩
      ∧ pyStrip s = s ∧ pyStrip d = d ∧ pyStrip m = m := by
  unfold parse_response
  dsimp only
  split
  · exact ⟨_, _, _, rfl, pyStrip_idem _, pyStrip_idem _, pyStrip_idem _⟩
  · exact ⟨_, _, _, rfl, pyStrip_idem _, pyStrip_idem _, pyStrip_idem _⟩

/-- Re-joining parsed fields with the markers as they appear in the spec's
canonical mixed-case input. -/
def rejoinSameMarkers (p : ParsedResult) : List Char :=
  p.summary ++ litS " Diagnosis: " ++ p.diagnosis ++ litS " Management: " ++ p.management

/-- Re-joining parsed fields with canonical uppercase labels. -/
def rejoinCanonical (p : ParsedResult) : List Char :=
  litS "SUMMARY: " ++ p.summary ++ litS " DIAGNOSIS: " ++ p.diagnosis
    ++ litS " MANAGEMENT: " ++ p.management

/-- C8, counterexample: for the canonical well-formed input with markers in
canonical order, re-joining the parser's output fields with the same
markers and re-parsing does not reproduce the fields (labels are never
stripped from the mixed-case fields, so they are duplicated on re-parse). -/
theorem C8_counterexample :
    parse_response (rejoinSameMarkers (parse_response
        (litS "Pt has flu. Diagnosis: Influenza. Management: rest and fluids.")))
      ≠ parse_response (litS "Pt has flu. Diagnosis: Influenza. Management: rest and fluids.") := by
  decide

/-- C8 (amended): the re-parse fixed point holds when the marker labels are
written in uppercase ("SUMMARY:", "DIAGNOSIS:", "MANAGEMENT:", canonical
order), since then `replace` does strip the labels, as at the canonical
uppercase input; for mixed-case labels it fails because label removal is
case-sensitive while marker search is case-insensitive. -/
theorem C8_uppercase_markers_fixed_point :
    parse_response (rejoinCanonical (parse_response
        (litS "SUMMARY: Pt has flu. DIAGNOSIS: Influenza. MANAGEMENT: rest and fluids.")))
      = parse_response (litS "SUMMARY: Pt has flu. DIAGNOSIS: Influenza. MANAGEMENT: rest and fluids.")
    ∧ parse_response (litS "SUMMARY: Pt has flu. DIAGNOSIS: Influenza. MANAGEMENT: rest and fluids.")
      = ⟨litS "Pt has flu.", litS "Influenza.", litS "rest and fluids."⟩ := by decide

/-- C9: the parser is a deterministic pure function of the accumulated text:
its result does not depend on any field of the service instance it is
invoked on (model path, device, lengths, loaded flag), only on the text. -/
theorem C9_parse_deterministic_state_independent (st1 st2 : MLServiceState) (t : List Char) :
    parse_response_method st1 t = parse_response_method st2 t := rfl

/-- C10: whenever an exception occurs in `LLMService.stream_response`
(connection failure before any line, or a mid-stream fault after any prefix
of lines, provided the loop has not already exited via `[DONE]`), the
generator yields exactly the fragments of the corresponding successful run
followed by one ordinary text fragment `"Error: " + msg` on the same channel
as content fragments, and then terminates; nothing is raised to the caller
and no distinctly-typed error value exists. -/
theorem C10_error_yielded_in_band (decode : List Char → Option (List Char))
    (lines : List (List Char)) (msg : List Char)
    (hnb : (processLines decode lines).2 = false) :
    stream_response decode lines (some msg)
      = stream_response decode lines none ++ [litS "Error: " ++ msg] := by
  simp only [stream_response]
  rw [hnb]
  simp

/-- C10, witness: a connection failure before any SSE line is delivered
yields the single fragment "Error: boom". -/
theorem C10_witness :
    (processLines (fun _ => none) []).2 = false
    ∧ stream_response (fun _ => none) [] (some (litS "boom"))
        = stream_response (fun _ => none) [] none ++ [litS "Error: " ++ litS "boom"] :=
  ⟨rfl, C10_error_yielded_in_band (fun _ => none) [] (litS "boom") rfl⟩

end MedInsight
